import Mathlib

/-!
Shallow embedding of the vector4HN Hacker News report pipeline
(`src/hn.py`, `src/analyze.py`, `src/tui.py`) and proofs of the
spec's testable properties about it.
-/

namespace Vector4HN

/-! ## HN client: comment tree BFS (`src/hn.py`, `HNClient.fetch_comments`)

An HN item as returned by `fetch_item`: `none` models the empty dict
returned on a fetch error (`not res` is then truthy in Python); a present
item carries the `deleted` / `dead` flags (absent keys read as `False`)
and the `kids` id list (absent key reads as no extension of the queue). -/

structure HNItem where
  deleted : Bool
  dead : Bool
  kids : List Nat
deriving Repr, DecidableEq

/-- A comment recorded by the BFS: the item id together with the `depth`
tag the loop attaches (`res["depth"] = depth`). -/
structure FetchedComment where
  id : Nat
  depth : Nat
deriving Repr, DecidableEq

/-- `not res or res.get("deleted") or res.get("dead")`: the condition under
which a fetched item is skipped by `fetch_comments`. -/
def itemFiltered : Option HNItem → Bool
  | none => true
  | some it => it.deleted || it.dead

/-- The inner `for i, res in enumerate(results)` loop of `fetch_comments`
over one dequeued batch: filtered items are skipped, accepted items are
recorded with their depth and their kids are enqueued at `depth + 1`, and
the loop breaks as soon as `fetched_count >= limit` (dropping the rest of
the batch, whose entries were already dequeued).  Returns the comments
accepted from this batch, the queue entries added by `queue.extend`, and
the updated `fetched_count`. -/
def processBatch (api : Nat → Option HNItem) (limit : Nat) :
    List (Nat × Nat) → Nat → List FetchedComment × List (Nat × Nat) × Nat
  | [], fetched => ([], [], fetched)
  | (id, depth) :: rest, fetched =>
    if itemFiltered (api id) then
      processBatch api limit rest fetched
    else
      let kidEntries := (match api id with
        | none => []
        | some it => it.kids).map (fun k => (k, depth + 1))
      if limit ≤ fetched + 1 then
        ([⟨id, depth⟩], kidEntries, fetched + 1)
      else
        let r := processBatch api limit rest (fetched + 1)
        (⟨id, depth⟩ :: r.1, kidEntries ++ r.2.1, r.2.2)

theorem processBatch_fetched_le (api : Nat → Option HNItem) (limit : Nat) :
    ∀ (batch : List (Nat × Nat)) (fetched : Nat),
      fetched ≤ (processBatch api limit batch fetched).2.2 := by
  intro batch
  induction batch with
  | nil => intro fetched; simp [processBatch]
  | cons hd tl ih =>
    intro fetched
    obtain ⟨id, depth⟩ := hd
    simp only [processBatch]
    split
    · exact ih fetched
    · split
      · simp
      · exact Nat.le_trans (Nat.le_succ fetched) (ih (fetched + 1))

theorem processBatch_le_limit (api : Nat → Option HNItem) (limit : Nat) :
    ∀ (batch : List (Nat × Nat)) (fetched : Nat), fetched < limit →
      (processBatch api limit batch fetched).2.2 ≤ limit := by
  intro batch
  induction batch with
  | nil => intro fetched h; simpa [processBatch] using Nat.le_of_lt h
  | cons hd tl ih =>
    intro fetched h
    obtain ⟨id, depth⟩ := hd
    simp only [processBatch]
    split
    · exact ih fetched h
    · split
      · simpa using h
      · exact ih (fetched + 1) (by omega)

theorem processBatch_count (api : Nat → Option HNItem) (limit : Nat) :
    ∀ (batch : List (Nat × Nat)) (fetched : Nat),
      (processBatch api limit batch fetched).2.2 =
        fetched + (processBatch api limit batch fetched).1.length := by
  intro batch
  induction batch with
  | nil => intro fetched; simp [processBatch]
  | cons hd tl ih =>
    intro fetched
    obtain ⟨id, depth⟩ := hd
    simp only [processBatch]
    split
    · exact ih fetched
    · split
      · simp
      · simp only [List.length_cons]
        rw [ih (fetched + 1)]
        omega

theorem processBatch_stall (api : Nat → Option HNItem) (limit : Nat) :
    ∀ (batch : List (Nat × Nat)) (fetched : Nat),
      (processBatch api limit batch fetched).2.2 = fetched →
      (processBatch api limit batch fetched).2.1 = [] := by
  intro batch
  induction batch with
  | nil => intro fetched _; simp [processBatch]
  | cons hd tl ih =>
    intro fetched h
    obtain ⟨id, depth⟩ := hd
    simp only [processBatch] at h ⊢
    split at h
    · rename_i hf
      simp only [hf, if_true] at *
      exact ih fetched h
    · rename_i hf
      simp only [hf] at *
      split at h
      · simp at h
      · rename_i hlim
        simp only [if_neg hlim] at h ⊢
        have := processBatch_fetched_le api limit tl (fetched + 1)
        omega

/-- The outer `while queue and fetched_count < limit` loop of
`fetch_comments`: dequeue `queue[:10]`, process the batch, append the new
entries to the remaining queue. -/
def fetchCommentsAux (api : Nat → Option HNItem) (limit : Nat)
    (queue : List (Nat × Nat)) (fetched : Nat) : List FetchedComment :=
  if queue = [] ∨ limit ≤ fetched then []
  else
    (processBatch api limit (queue.take 10) fetched).1 ++
      fetchCommentsAux api limit
        (queue.drop 10 ++ (processBatch api limit (queue.take 10) fetched).2.1)
        (processBatch api limit (queue.take 10) fetched).2.2
termination_by (limit - fetched, queue.length)
decreasing_by
  rename_i h
  push_neg at h
  obtain ⟨hq, hf⟩ := h
  by_cases hstep : (processBatch api limit (queue.take 10) fetched).2.2 = fetched
  · apply Prod.Lex.right'
    · omega
    · rw [processBatch_stall api limit _ _ hstep]
      have : queue.length ≠ 0 := by
        simpa using List.length_pos.mpr hq |>.ne'
      simp only [List.append_nil, List.length_drop]
      omega
  · apply Prod.Lex.left
    have := processBatch_fetched_le api limit (queue.take 10) fetched
    omega

/-- `HNClient.fetch_comments(item_ids, limit)`: BFS from the root ids at
depth 0. -/
def fetch_comments (api : Nat → Option HNItem) (item_ids : List Nat)
    (limit : Nat) : List FetchedComment :=
  fetchCommentsAux api limit (item_ids.map (fun id => (id, 0))) 0

theorem fetchCommentsAux_length (api : Nat → Option HNItem) (limit : Nat)
    (queue : List (Nat × Nat)) (fetched : Nat) :
    (fetchCommentsAux api limit queue fetched).length ≤ limit - fetched := by
  induction queue, fetched using fetchCommentsAux.induct api limit with
  | case1 queue fetched h =>
    rw [fetchCommentsAux, if_pos h]
    simp
  | case2 queue fetched h ih =>
    rw [fetchCommentsAux, if_neg h]
    push_neg at h
    simp only [List.length_append]
    have hle := processBatch_fetched_le api limit (queue.take 10) fetched
    have hlim := processBatch_le_limit api limit (queue.take 10) fetched h.2
    have hcount := processBatch_count api limit (queue.take 10) fetched
    omega

theorem processBatch_mem_unfiltered (api : Nat → Option HNItem) (limit : Nat) :
    ∀ (batch : List (Nat × Nat)) (fetched : Nat) (c : FetchedComment),
      c ∈ (processBatch api limit batch fetched).1 →
      itemFiltered (api c.id) = false := by
  intro batch
  induction batch with
  | nil => intro fetched c hc; simp [processBatch] at hc
  | cons hd tl ih =>
    intro fetched c hc
    obtain ⟨id, depth⟩ := hd
    simp only [processBatch] at hc
    split at hc
    · exact ih fetched c hc
    · rename_i hf
      split at hc
      · simp only [List.mem_singleton] at hc
        subst hc
        simpa using hf
      · rcases List.mem_cons.mp hc with hc | hc
        · subst hc
          simpa using hf
        · exact ih (fetched + 1) c hc

theorem fetchCommentsAux_mem_unfiltered (api : Nat → Option HNItem)
    (limit : Nat) (queue : List (Nat × Nat)) (fetched : Nat) :
    ∀ c ∈ fetchCommentsAux api limit queue fetched,
      itemFiltered (api c.id) = false := by
  induction queue, fetched using fetchCommentsAux.induct api limit with
  | case1 q f h =>
    intro c hc
    rw [fetchCommentsAux, if_pos h] at hc
    simp at hc
  | case2 q f h ih =>
    intro c hc
    rw [fetchCommentsAux, if_neg h] at hc
    rcases List.mem_append.mp hc with h1 | h2
    · exact processBatch_mem_unfiltered api limit _ _ c h1
    · exact ih c h2

theorem processBatch_congr (api api' : Nat → Option HNItem) (limit fid : Nat)
    (hfilt : itemFiltered (api fid) = true)
    (hfilt' : itemFiltered (api' fid) = true)
    (hagree : ∀ j, j ≠ fid → api' j = api j) :
    ∀ (batch : List (Nat × Nat)) (fetched : Nat),
      processBatch api' limit batch fetched =
        processBatch api limit batch fetched := by
  intro batch
  induction batch with
  | nil => intro fetched; simp [processBatch]
  | cons hd tl ih =>
    intro fetched
    obtain ⟨id, depth⟩ := hd
    by_cases hid : id = fid
    · subst hid
      simp only [processBatch, hfilt, hfilt', if_pos]
      exact ih fetched
    · have he : api' id = api id := hagree id hid
      simp only [processBatch, he]
      split
      · exact ih fetched
      · split
        · rfl
        · rw [ih (fetched + 1)]

theorem fetchCommentsAux_congr (api api' : Nat → Option HNItem)
    (limit fid : Nat)
    (hfilt : itemFiltered (api fid) = true)
    (hfilt' : itemFiltered (api' fid) = true)
    (hagree : ∀ j, j ≠ fid → api' j = api j)
    (queue : List (Nat × Nat)) (fetched : Nat) :
    fetchCommentsAux api' limit queue fetched =
      fetchCommentsAux api limit queue fetched := by
  induction queue, fetched using fetchCommentsAux.induct api limit with
  | case1 q f h =>
    conv_lhs => rw [fetchCommentsAux]
    conv_rhs => rw [fetchCommentsAux]
    rw [if_pos h, if_pos h]
  | case2 q f h ih =>
    conv_lhs => rw [fetchCommentsAux]
    conv_rhs => rw [fetchCommentsAux]
    rw [if_neg h, if_neg h,
      processBatch_congr api api' limit fid hfilt hfilt' hagree, ih]

/-! ## HN client: article text extraction
(`src/hn.py`, `HNClient.fetch_article_text`)

String helpers mirroring the Python `str.lower` / `str.endswith` /
`str.startswith` operations on the ASCII strings involved, written over
the character list so that concrete instances evaluate.

The network/extraction part is abstracted by an oracle
`net : String → Except String (Option String)`: an `error` is an exception
raised while fetching, `ok none` is a fetch whose extraction produced no
text, `ok (some t)` is a successful extraction of `t`.  The second
component of the result counts GET requests issued. -/

/-- `s.lower()` (ASCII case folding, as needed here). -/
def lowerStr (s : String) : String := ⟨s.data.map Char.toLower⟩

/-- `s.endswith(pat)`. -/
def endsWithStr (s pat : String) : Bool :=
  decide (pat.data = s.data.drop (s.data.length - pat.data.length))

/-- `s.startswith(pat)`. -/
def beginsWithStr (s pat : String) : Bool :=
  decide (pat.data = s.data.take pat.data.length)

def fetch_article_text (net : String → Except String (Option String))
    (url : String) : String × Nat :=
  if url = "" then ("No URL provided.", 0)
  else if endsWithStr (lowerStr url) ".pdf" then
    ("PDF content extraction not supported.", 0)
  else
    match net url with
    | .error e => ("Failed to extract text: " ++ e, 1)
    | .ok none => ("Could not extract article text.", 1)
    | .ok (some t) => (t.take 20000, 1)

/-! ## Analyzer and LLM providers (`src/analyze.py`) -/

/-- One entry of an OpenAI/Ollama-style message list. -/
structure ChatMsg where
  role : String
  content : String
deriving Repr, DecidableEq

/-- A configured LLM provider instance. -/
inductive Provider
  | ollamaP (host model : String)
  | geminiP (apiKey model : String)
deriving Repr, DecidableEq

/-- The recognized environment variables (`none` = unset). -/
structure Env where
  llmProvider : Option String
  geminiApiKey : Option String
  geminiModel : Option String
  ollamaHost : Option String
  ollamaModel : Option String
deriving Repr, DecidableEq

/-- Python `a or b` over optional strings (`None` and `""` are falsy). -/
def pyOr (a b : Option String) : Option String :=
  match a with
  | some s => if s = "" then b else some s
  | none => b

/-- Python truthiness of an optional string. -/
def truthy : Option String → Bool
  | none => false
  | some s => s ≠ ""

/-- An exception escaping `Analyzer._setup_provider`. -/
inductive SetupErr
  | valueError (msg : String)
  | importError (msg : String)
deriving Repr, DecidableEq

/-- `Analyzer._setup_provider`: builds a provider from the environment.
A missing credential for `gemini` raises; a missing `google-genai`
dependency raises from `GeminiProvider.__init__`; every other provider
type falls into the `else` branch, which binds the Ollama host and model
but ends without a `return` statement, so the method returns `None`
(modelled as `.ok none`). -/
def setup_provider (hasGemini : Bool) (env : Env) :
    Except SetupErr (Option Provider) :=
  let providerType := lowerStr (env.llmProvider.getD "ollama")
  if providerType = "gemini" then
    if truthy env.geminiApiKey = false then
      .error (.valueError
        "GEMINI_API_KEY environment variable is required for Gemini provider.")
    else if hasGemini = false then
      .error (.importError "google-genai package is not installed.")
    else
      .ok (some (.geminiP (env.geminiApiKey.getD "")
        (env.geminiModel.getD "gemini-3-flash-preview")))
  else
    .ok none

/-- The `Analyzer.provider` property: lazily initializes `_provider` via
`_setup_provider` and returns it.  The result pairs the returned value
with the new `_provider` field. -/
def providerProp (hasGemini : Bool) (env : Env) (st : Option Provider) :
    Except SetupErr (Option Provider × Option Provider) :=
  match st with
  | some p => .ok (some p, some p)
  | none => (setup_provider hasGemini env).map (fun r => (r, r))

/-- `Analyzer.set_provider(provider_type, **kwargs)`: returns the `bool`
result together with the new `(_provider, env)` pair.  Every exception in
the body is caught and turned into `False`, leaving the state unchanged. -/
def set_provider (hasGemini : Bool) (st : Option Provider) (env : Env)
    (providerType : String) (apiKeyArg hostArg modelArg : Option String) :
    Bool × Option Provider × Env :=
  if providerType = "gemini" then
    let apiKey := pyOr apiKeyArg env.geminiApiKey
    if truthy apiKey = false then
      (false, st, env)
    else if hasGemini = false then
      (false, st, env)
    else
      let model := (pyOr modelArg
        (some (env.geminiModel.getD "gemini-3-flash-preview"))).getD ""
      let env' := { env with
        llmProvider := some providerType,
        geminiModel := if modelArg.isSome then modelArg else env.geminiModel }
      (true, some (.geminiP (apiKey.getD "") model), env')
  else if providerType = "ollama" then
    let host := (pyOr hostArg
      (some (env.ollamaHost.getD "http://localhost:11434"))).getD ""
    let model := (pyOr modelArg (some (env.ollamaModel.getD "llama3"))).getD ""
    let env' := { env with
      llmProvider := some providerType,
      ollamaModel := if modelArg.isSome then modelArg else env.ollamaModel }
    (true, some (.ollamaP host model), env')
  else
    (false, st, env)

/-- `ReportScreen.__init__`: `self.is_error = report_md.startswith("ANALYSIS_ERROR:")`
(`src/tui.py`). -/
def reportIsError (reportMd : String) : Bool :=
  beginsWithStr reportMd "ANALYSIS_ERROR:"

/-- The message Python produces when `self.provider` is `None` and
`.chat` is accessed on it. -/
def noneChatAttrMsg : String := "'NoneType' object has no attribute 'chat'"

/-- The provider-call part of `Analyzer.generate_report`: the prompt is
built, then `self.provider.chat` is awaited inside `try`; on success the
response content is returned, on any exception the string
`f"Error analyzing story: {str(e)}"` is returned (never raised).  `chat`
abstracts the provider call; the second component counts backend chat
calls dispatched. -/
def generate_report (provider : Option Provider)
    (chat : Provider → Except String String) : String × Nat :=
  match provider with
  | none => ("Error analyzing story: " ++ noneChatAttrMsg, 0)
  | some p =>
    match chat p with
    | .ok content => (content, 1)
    | .error e => ("Error analyzing story: " ++ e, 1)

/-! ## Cloud backend chat (`src/analyze.py`, `GeminiProvider.chat`) -/

/-- One entry of the converted Gemini history. -/
structure GeminiMsg where
  role : String
  parts : List String
deriving Repr, DecidableEq

/-- The role-mapping loop of `GeminiProvider.chat`: `user` → `user`,
`assistant` → `model`, anything else is skipped. -/
def geminiContents (messages : List ChatMsg) : List GeminiMsg :=
  messages.filterMap (fun m =>
    if m.role = "user" then some ⟨"user", [m.content]⟩
    else if m.role = "assistant" then some ⟨"model", [m.content]⟩
    else none)

/-- `GeminiProvider.chat` as written in the source: it converts the
messages and then awaits `generate_content` exactly once, with no
`try`/retry around it, so the first exception propagates.  `call n c` is
the outcome of the `n`-th underlying `generate_content` request for
contents `c`; the second component counts the requests issued. -/
def geminiChat (call : Nat → List GeminiMsg → Except String String)
    (messages : List ChatMsg) : Except String String × Nat :=
  match call 0 (geminiContents messages) with
  | .ok content => (.ok content, 1)
  | .error e => (.error e, 1)

/-- Modelled from the spec: the retry policy the spec and the test suite
(`tests/test_retry_mechanism.py`) require of the cloud backend — up to 3
total attempts, returning the first success and propagating the final
exception only after all attempts fail.  This definition follows the
spec's words; it is absent from `GeminiProvider.chat` in `src/analyze.py`. -/
def geminiChatSpecRetry (call : Nat → List GeminiMsg → Except String String)
    (messages : List ChatMsg) : Except String String × Nat :=
  let c := geminiContents messages
  match call 0 c with
  | .ok content => (.ok content, 1)
  | .error _ =>
    match call 1 c with
    | .ok content => (.ok content, 2)
    | .error _ =>
      match call 2 c with
      | .ok content => (.ok content, 3)
      | .error e => (.error e, 3)

/-! ## Processing screen (`src/tui.py`,
`ProcessingScreen._process_story_implementation`)

The story processing flow is modelled as a pure function of the on-disk
cache state for the story id and oracles for the four effectful
operations; it returns the new cache state, the trace of those operations
in execution order, and the arguments pushed to `ReportScreen`. -/

/-- A story item as used by the processing flow (`story.get("url", "")`,
`story.get("kids", [])`). -/
structure StoryData where
  url : Option String
  kids : List Nat
deriving Repr, DecidableEq

/-- The persisted context JSON
(`{"story", "article_text", "comments", "chat_history"}`). -/
structure ContextData where
  story : StoryData
  articleText : String
  comments : List FetchedComment
  chatHistory : List ChatMsg
deriving Repr, DecidableEq

/-- The on-disk cache for one story id: the `.md` report files matched by
`glob("reports/hn_{id}_*.md")` (filename and content, in glob order) and
the optional `reports/hn_{id}_context.json` file. -/
structure CacheFS where
  reports : List (String × String)
  context : Option ContextData
deriving Repr, DecidableEq

/-- The four effectful operations the caching claims count. -/
inductive FetchOp
  | fetchStory
  | fetchArticle
  | fetchComments
  | generateReport
deriving Repr, DecidableEq

/-- Oracles for the effectful operations invoked by the processing flow. -/
structure Oracles where
  fetchItem : Nat → StoryData
  fetchArticleText : String → String
  fetchComments : List Nat → Nat → List FetchedComment
  generateReport : StoryData → String → List FetchedComment → String

/-- The arguments passed to `ReportScreen(...)` at the end of
`_process_story_implementation`. -/
structure ScreenArgs where
  story : StoryData
  articleText : String
  comments : List FetchedComment
  report : String
  filename : String
  chatHistory : List ChatMsg
deriving Repr, DecidableEq

/-- The result of one run of `_process_story_implementation`. -/
structure ProcResult where
  fs : CacheFS
  trace : List FetchOp
  screen : ScreenArgs
deriving Repr, DecidableEq

/-- `_process_story_implementation(story_id)`:
* cache hit (some report file and the context file both exist): report and
  context are read from disk, nothing is fetched or generated;
* full miss (no report file): fetch story, article and comments, generate
  the report, write it to a fresh timestamped file (`newName`), and write
  the context file with an empty `chat_history`;
* legacy recovery (a report file exists, the context file does not):
  fetch story, article and comments, skip generation, reuse the first
  matching report file's content, and write the context file with an
  empty `chat_history`.
In the two miss branches `chat_history` is never assigned, so the screen
receives `[]` (the `if 'chat_history' in locals() else []` fallback). -/
def processStory (o : Oracles) (storyId : Nat) (fs : CacheFS)
    (newName : String) : ProcResult :=
  match fs.reports, fs.context with
  | (fname, content) :: _, some ctx =>
    { fs := fs
      trace := []
      screen := ⟨ctx.story, ctx.articleText, ctx.comments, content, fname,
        ctx.chatHistory⟩ }
  | [], _ =>
    let story := o.fetchItem storyId
    let articleText := o.fetchArticleText (story.url.getD "")
    let comments := o.fetchComments story.kids 100
    let report := o.generateReport story articleText comments
    { fs := ⟨[(newName, report)], some ⟨story, articleText, comments, []⟩⟩
      trace := [.fetchStory, .fetchArticle, .fetchComments, .generateReport]
      screen := ⟨story, articleText, comments, report, newName, []⟩ }
  | (fname, content) :: rest, none =>
    let story := o.fetchItem storyId
    let articleText := o.fetchArticleText (story.url.getD "")
    let comments := o.fetchComments story.kids 100
    { fs := ⟨(fname, content) :: rest, some ⟨story, articleText, comments, []⟩⟩
      trace := [.fetchStory, .fetchArticle, .fetchComments]
      screen := ⟨story, articleText, comments, content, fname, []⟩ }

/-! ## Report screen chat turn (`src/tui.py`,
`ReportScreen._run_chat_query_implementation`) -/

/-- The state a chat turn touches: the in-memory `chat_history`, the
report file's content, and the optional context file. -/
structure ChatTurnState where
  chatHistory : List ChatMsg
  reportContent : String
  context : Option ContextData
deriving Repr, DecidableEq

/-- The `## Chat Log` block appended to the report file by a chat turn. -/
def chatLogSection (providerName question answer timestamp : String) :
    String :=
  "\n\n## Chat Log (" ++ timestamp ++ ")\n" ++
    "**User**: " ++ question ++ "\n\n" ++
    "**" ++ providerName ++ "**: " ++ answer ++ "\n"

/-- One successful `_run_chat_query_implementation(question)` turn, with
`answer` the value returned by `analyzer.chat_with_context`: appends the
user entry then the assistant entry to `chat_history`, appends a
`## Chat Log` section to the report file, and — when the context file
exists — rewrites it with `chat_history` replaced by the updated
in-memory history. -/
def runChatQuery (st : ChatTurnState)
    (question answer providerName timestamp : String) : ChatTurnState :=
  let newHistory := st.chatHistory ++
    [⟨"user", question⟩, ⟨"assistant", answer⟩]
  { chatHistory := newHistory
    reportContent := st.reportContent ++
      chatLogSection providerName question answer timestamp
    context := match st.context with
      | some ctx => some { ctx with chatHistory := newHistory }
      | none => none }

/-! ## Claim theorems -/

/-- Claim C1: for every story id, when both a report file matching the id
and the context file exist (cache hit), processing the story performs
zero calls to fetch-story, fetch-article, fetch-comments and
generate-report — the trace of those operations is empty, the cache is
untouched, and the report and context shown are exactly the ones read
from disk. -/
theorem cacheHit_zero_calls (o : Oracles) (storyId : Nat)
    (fname content newName : String) (rest : List (String × String))
    (ctx : ContextData) :
    processStory o storyId ⟨(fname, content) :: rest, some ctx⟩ newName =
      ⟨⟨(fname, content) :: rest, some ctx⟩, [],
        ⟨ctx.story, ctx.articleText, ctx.comments, content, fname,
          ctx.chatHistory⟩⟩ := rfl

/-- Claim C7: for every story id where a matching report file exists but
the context file does not (legacy recovery), processing performs exactly
the story, article and comments fetches, skips report generation, reuses
the existing report file's content, and writes a fresh context file from
the newly fetched data with an empty chat history. -/
theorem legacyRecovery_skips_generation (o : Oracles) (storyId : Nat)
    (fname content newName : String) (rest : List (String × String)) :
    processStory o storyId ⟨(fname, content) :: rest, none⟩ newName =
      ⟨⟨(fname, content) :: rest,
          some ⟨o.fetchItem storyId,
            o.fetchArticleText ((o.fetchItem storyId).url.getD ""),
            o.fetchComments (o.fetchItem storyId).kids 100, []⟩⟩,
        [.fetchStory, .fetchArticle, .fetchComments],
        ⟨o.fetchItem storyId,
          o.fetchArticleText ((o.fetchItem storyId).url.getD ""),
          o.fetchComments (o.fetchItem storyId).kids 100,
          content, fname, []⟩⟩ := rfl

/-- Claim C4: after one successful follow-up chat turn (with the context
file present, as it always is once processing has run), the in-memory
chat history grows by exactly two entries — a user entry then an
assistant entry, in that order — the report content gets the
`## Chat Log` section appended, and the context file's chat history
equals the updated in-memory history exactly. -/
theorem chatTurn_persistence (st : ChatTurnState) (ctx : ContextData)
    (q a pn ts : String) (h : st.context = some ctx) :
    (runChatQuery st q a pn ts).chatHistory.length =
        st.chatHistory.length + 2 ∧
    (runChatQuery st q a pn ts).chatHistory =
        st.chatHistory ++ [⟨"user", q⟩, ⟨"assistant", a⟩] ∧
    (runChatQuery st q a pn ts).reportContent =
        st.reportContent ++ chatLogSection pn q a ts ∧
    (runChatQuery st q a pn ts).context.map ContextData.chatHistory =
        some ((runChatQuery st q a pn ts).chatHistory) := by
  refine ⟨by simp [runChatQuery], rfl, rfl, ?_⟩
  simp [runChatQuery, h]

/-- Witness for C4 at a concrete chat-turn state. -/
theorem chatTurn_persistence_witness :
    (runChatQuery ⟨[], "# R", some ⟨⟨none, []⟩, "", [], []⟩⟩
        "q" "a" "Ollama" "t").chatHistory.length = ([] : List ChatMsg).length + 2 ∧
    (runChatQuery ⟨[], "# R", some ⟨⟨none, []⟩, "", [], []⟩⟩
        "q" "a" "Ollama" "t").chatHistory =
      [] ++ [⟨"user", "q"⟩, ⟨"assistant", "a"⟩] ∧
    (runChatQuery ⟨[], "# R", some ⟨⟨none, []⟩, "", [], []⟩⟩
        "q" "a" "Ollama" "t").reportContent =
      "# R" ++ chatLogSection "Ollama" "q" "a" "t" ∧
    (runChatQuery ⟨[], "# R", some ⟨⟨none, []⟩, "", [], []⟩⟩
        "q" "a" "Ollama" "t").context.map ContextData.chatHistory =
      some ((runChatQuery ⟨[], "# R", some ⟨⟨none, []⟩, "", [], []⟩⟩
        "q" "a" "Ollama" "t").chatHistory) :=
  chatTurn_persistence ⟨[], "# R", some ⟨⟨none, []⟩, "", [], []⟩⟩
    ⟨⟨none, []⟩, "", [], []⟩ "q" "a" "Ollama" "t" rfl

/-- Claim C5: for every item api, every list of root ids and every limit,
the sequence returned by `fetch_comments` has length at most `limit`. -/
theorem fetch_comments_length_le (api : Nat → Option HNItem)
    (item_ids : List Nat) (limit : Nat) :
    (fetch_comments api item_ids limit).length ≤ limit := by
  have h := fetchCommentsAux_length api limit
    (item_ids.map (fun id => (id, 0))) 0
  rw [fetch_comments]
  omega

/-- Claim C6: a comment whose fetched item is empty, deleted or dead is
excluded from the result of `fetch_comments`, and its children are never
enqueued: the result does not change if the filtered item's contents
(its kids in particular) are replaced arbitrarily, so the whole subtree
reachable only through it is absent. -/
theorem filtered_comment_subtree_dropped (api api' : Nat → Option HNItem)
    (item_ids : List Nat) (limit fid : Nat)
    (hfilt : itemFiltered (api fid) = true)
    (hfilt' : itemFiltered (api' fid) = true)
    (hagree : ∀ j, j ≠ fid → api' j = api j) :
    (∀ c ∈ fetch_comments api item_ids limit, c.id ≠ fid) ∧
    fetch_comments api' item_ids limit = fetch_comments api item_ids limit := by
  constructor
  · intro c hc hcid
    have hu := fetchCommentsAux_mem_unfiltered api limit
      (item_ids.map (fun id => (id, 0))) 0 c hc
    rw [hcid, hfilt] at hu
    exact absurd hu (by simp)
  · exact fetchCommentsAux_congr api api' limit fid hfilt hfilt' hagree _ 0

/-- A small item api with a dead comment `1` whose only child is `2`. -/
def wApi : Nat → Option HNItem := fun n =>
  if n = 1 then some ⟨false, true, [2]⟩
  else if n = 2 then some ⟨false, false, []⟩
  else none

/-- `wApi` with the dead comment's kids list emptied. -/
def wApiNoKids : Nat → Option HNItem := fun n =>
  if n = 1 then some ⟨false, true, []⟩ else wApi n

/-- Witness for C6 at a concrete api with a dead comment. -/
theorem filtered_comment_subtree_dropped_witness :
    (∀ c ∈ fetch_comments wApi [1] 10, c.id ≠ 1) ∧
    fetch_comments wApiNoKids [1] 10 = fetch_comments wApi [1] 10 :=
  filtered_comment_subtree_dropped wApi wApiNoKids [1] 10 1 rfl rfl
    (fun j hj => by simp [wApiNoKids, hj])

/-- Claim C9: an empty URL yields the fixed `"No URL provided."` string
and a `.pdf`-suffixed URL (case-insensitively) yields the fixed
`"PDF content extraction not supported."` string, in both cases with
zero network requests. -/
theorem article_text_sentinels (net : String → Except String (Option String))
    (url : String) :
    (url = "" → fetch_article_text net url = ("No URL provided.", 0)) ∧
    (endsWithStr (lowerStr url) ".pdf" = true →
      fetch_article_text net url =
        ("PDF content extraction not supported.", 0)) := by
  constructor
  · intro h
    rw [fetch_article_text, if_pos h]
  · intro h
    have hne : url ≠ "" := by
      intro he
      rw [he] at h
      exact absurd h (by decide)
    rw [fetch_article_text, if_neg hne, if_pos h]

/-- Witness for C9 at an empty URL and at an uppercase `.PDF` URL. -/
theorem article_text_sentinels_witness :
    fetch_article_text (fun _ => .ok none) "" = ("No URL provided.", 0) ∧
    fetch_article_text (fun _ => .ok none) "paper.PDF" =
      ("PDF content extraction not supported.", 0) :=
  ⟨(article_text_sentinels (fun _ => .ok none) "").1 rfl,
   (article_text_sentinels (fun _ => .ok none) "paper.PDF").2 (by decide)⟩

/-- Claim C8: `set_provider` rejects the cloud backend when no credential
is available (neither a kwargs key nor the environment one is truthy),
and rejects every provider identifier other than `"gemini"` and
`"ollama"`; in both cases it returns `False` and leaves the current
provider and the environment unchanged, at provider-selection time. -/
theorem set_provider_rejections (hasGemini : Bool) (st : Option Provider)
    (env : Env) (apiKeyArg hostArg modelArg : Option String) (pt : String) :
    (truthy (pyOr apiKeyArg env.geminiApiKey) = false →
      set_provider hasGemini st env "gemini" apiKeyArg hostArg modelArg =
        (false, st, env)) ∧
    (pt ≠ "gemini" → pt ≠ "ollama" →
      set_provider hasGemini st env pt apiKeyArg hostArg modelArg =
        (false, st, env)) := by
  constructor
  · intro h
    simp [set_provider, h]
  · intro h1 h2
    simp [set_provider, h1, h2]

/-- Witness for C8: gemini without any credential, and an unknown
provider identifier, both rejected without touching the state. -/
theorem set_provider_rejections_witness :
    set_provider true none ⟨none, none, none, none, none⟩ "gemini"
        none none none =
      (false, none, ⟨none, none, none, none, none⟩) ∧
    set_provider true none ⟨none, none, none, none, none⟩ "openai"
        none none none =
      (false, none, ⟨none, none, none, none, none⟩) :=
  ⟨(set_provider_rejections true none ⟨none, none, none, none, none⟩
      none none none "openai").1 rfl,
   (set_provider_rejections true none ⟨none, none, none, none, none⟩
      none none none "openai").2 (by decide) (by decide)⟩

/-- Claim C10: when the configured provider type is anything other than
`"gemini"` (including the default `"ollama"`), `_setup_provider` returns
`None` (its default branch has no `return`), the `provider` property
therefore yields `None`, and the first report call returns the
`"Error analyzing story: ..."` string from the `AttributeError` on
`None.chat` — zero calls are dispatched to the local backend. -/
theorem default_provider_is_none (hasGemini : Bool) (env : Env)
    (chat : Provider → Except String String)
    (h : lowerStr (env.llmProvider.getD "ollama") ≠ "gemini") :
    setup_provider hasGemini env = .ok none ∧
    providerProp hasGemini env none = .ok (none, none) ∧
    generate_report none chat =
      ("Error analyzing story: " ++ noneChatAttrMsg, 0) := by
  refine ⟨?_, ?_, rfl⟩
  · rw [setup_provider]
    simp [h]
  · simp [providerProp, setup_provider, h, Except.map]

/-- Witness for C10 with an entirely unset environment (the default
configuration). -/
theorem default_provider_is_none_witness :
    setup_provider true ⟨none, none, none, none, none⟩ = .ok none ∧
    providerProp true ⟨none, none, none, none, none⟩ none = .ok (none, none) ∧
    generate_report none (fun _ => .ok "x") =
      ("Error analyzing story: " ++ noneChatAttrMsg, 0) :=
  default_provider_is_none true ⟨none, none, none, none, none⟩
    (fun _ => .ok "x") (by decide)

/-- Claim C3 (code bug): on a provider-call failure `generate_report`
returns (never raises) the string `"Error analyzing story: ..."`, but
`ReportScreen` detects failure by the prefix `"ANALYSIS_ERROR:"`, which
never matches, so the failed report is not detected and the retry action
is not offered. -/
theorem report_error_detection_mismatch :
    (generate_report (some (.ollamaP "http://localhost:11434" "llama3"))
        (fun _ => .error "boom")).1 = "Error analyzing story: boom" ∧
    reportIsError
      (generate_report (some (.ollamaP "http://localhost:11434" "llama3"))
        (fun _ => .error "boom")).1 = false := by
  exact ⟨rfl, by decide⟩

/-- Claim C2 (code bug): `GeminiProvider.chat` as written performs a
single `generate_content` call and propagates the first exception, so
with two transient failures followed by a success it raises after one
call instead of returning the success after three; the retry policy the
spec and the test suite require (`geminiChatSpecRetry`) returns the
success content after exactly three calls on the same input. -/
theorem gemini_chat_no_retry :
    geminiChat
        (fun n _ => if n < 2 then .error "503 UNAVAILABLE"
          else .ok "Success report")
        [⟨"user", "hello"⟩] =
      (.error "503 UNAVAILABLE", 1) ∧
    geminiChatSpecRetry
        (fun n _ => if n < 2 then .error "503 UNAVAILABLE"
          else .ok "Success report")
        [⟨"user", "hello"⟩] =
      (.ok "Success report", 3) := ⟨rfl, rfl⟩

end Vector4HN
